import Mathlib

/-!
Verification of `lr7.py`: a parameterizable logging decorator with dual-mode
sink dispatch, a currency-rate fetcher (`get_currencies`), and a quadratic
solver (`solve_quadratic`) with outcome-classified logging.

The Python code is shallowly embedded:
* Python values relevant to the solver are `PyVal` (numbers idealized as `ℚ`
  for the coefficients, strings for the non-numeric inputs); the real-valued
  roots produced by `math.sqrt` arithmetic are idealized as `ℝ` with
  `Real.sqrt`.
* Python exceptions are `PyErr` records carrying the exception class name
  (`type(e).__name__`) and the message string; fallible functions return
  `Except PyErr _`.
* A log sink (`handle`) is modelled by its probed capabilities
  (`hasattr(handle, 'info')`, `hasattr(handle, 'error')`), and each emission
  the sink receives is a `SinkCall` (a leveled method call with a raw message,
  or a `write` of a full line).
* Parsed JSON payloads are `JVal`; Python dicts are insertion-ordered
  association lists.
Python's `repr`/`str`/format primitives for values our model leaves abstract
are passed in as string-valued parameters.
-/

namespace LR7

/-- A Python exception, identified by its class name and its message. -/
structure PyErr where
  kind : String
  msg : String
deriving DecidableEq, Repr

/-- A Python value passed as a coefficient to `solve_quadratic`:
a number (`int`/`float`, idealized as `ℚ`) or a string. -/
inductive PyVal where
  | num (q : ℚ)
  | str (s : String)
deriving DecidableEq, Repr

/-- `isinstance(v, (int, float))` for a `PyVal`, returning the numeric value. -/
def PyVal.toNum? : PyVal → Option ℚ
  | .num q => some q
  | .str _ => none

/-- `raise TypeError("Коэффициенты должны быть числами")` in `solve_quadratic`. -/
def typeMismatchErr : PyErr :=
  ⟨"TypeError", "Коэффициенты должны быть числами"⟩

/-- `raise ValueError("Уравнение имеет бесконечно много решений")` in `solve_quadratic`. -/
def degenerateInfiniteErr : PyErr :=
  ⟨"ValueError", "Уравнение имеет бесконечно много решений"⟩

/-- The pure body of `solve_quadratic(a, b, c)` (src/lr7.py lines 184-208).
Branch structure mirrors the source; the roots live in `ℝ` (Python floats
idealized), with `math.sqrt` as `Real.sqrt`. -/
noncomputable def solve_quadratic (a b c : PyVal) : Except PyErr (List ℝ) :=
  match a.toNum?, b.toNum?, c.toNum? with
  | some qa, some qb, some qc =>
    if qa = 0 then
      if qb = 0 then
        if qc = 0 then
          Except.error degenerateInfiniteErr
        else
          Except.ok []
      else
        Except.ok [((-qc / qb : ℚ) : ℝ)]
    else
      let discriminant : ℚ := qb ^ 2 - 4 * qa * qc
      if discriminant < 0 then
        Except.ok []
      else if discriminant = 0 then
        Except.ok [((-qb / (2 * qa) : ℚ) : ℝ)]
      else
        let sqrt_disc : ℝ := Real.sqrt (discriminant : ℝ)
        let x1 : ℝ := (-(qb : ℝ) + sqrt_disc) / (2 * (qa : ℝ))
        let x2 : ℝ := (-(qb : ℝ) - sqrt_disc) / (2 * (qa : ℝ))
        Except.ok [x1, x2]
  | _, _, _ => Except.error typeMismatchErr

/-! ## The logging decorator (`logger`, src/lr7.py lines 11-56) -/

/-- A log sink as the decorator sees it: the decorator probes it with
`hasattr(handle, 'info')` and `hasattr(handle, 'error')`, so only those two
capabilities matter for dispatch. -/
structure Handle where
  hasInfo : Bool
  hasError : Bool
deriving DecidableEq, Repr

/-- `is_logging_obj = hasattr(handle, 'info') and hasattr(handle, 'error')`. -/
def is_logging_obj (handle : Handle) : Bool :=
  handle.hasInfo && handle.hasError

/-- One emission received by the sink: a leveled method call
(`handle.info/…/error(msg)`) with the raw message, or `handle.write(s)`
with a full line. -/
inductive SinkCall where
  | info (msg : String)
  | warning (msg : String)
  | error (msg : String)
  | write (s : String)
deriving DecidableEq, Repr

/-- The message a sink call carries (without the stream framing decisions). -/
def SinkCall.payload : SinkCall → String
  | .info m => m
  | .warning m => m
  | .error m => m
  | .write m => m

/-- The severity of a leveled sink call; `none` for a raw stream `write`. -/
def SinkCall.level? : SinkCall → Option String
  | .info _ => some "INFO"
  | .warning _ => some "WARNING"
  | .error _ => some "ERROR"
  | .write _ => none

/-- `sub` occurs as a substring of `s`. -/
def strContains (s sub : String) : Prop :=
  ∃ p q : String, s = p ++ sub ++ q

/-- A sink call whose payload mentions `sub`. -/
def SinkCall.mentions (c : SinkCall) (sub : String) : Prop :=
  strContains c.payload sub

/-- `all_args_str` of `logger.inner` (src/lr7.py lines 26-28): positional
arguments come pre-rendered by `repr`, keyword items as `(key, repr value)`
pairs; empty renderings are skipped (`filter(None, …)`). -/
def renderArgs (args_reprs : List String) (kwargs_items : List (String × String)) : String :=
  let args_str := String.intercalate ", " args_reprs
  let kwargs_str := String.intercalate ", " (kwargs_items.map (fun kv => kv.1 ++ "=" ++ kv.2))
  String.intercalate ", " (List.filter (fun s => !s.isEmpty) [args_str, kwargs_str])

/-- `logger.inner` (src/lr7.py lines 20-56). The wrapped target is
`func : α → Except PyErr β` applied to the (opaque) argument bundle `x`;
`args_reprs`/`kwargs_items` are the `repr`-renderings of that same bundle and
`repr_res` is Python's `repr` on results. Returns the list of sink emissions
in order, paired with the propagated outcome. -/
def logger_inner {α β : Type} (funcName : String) (func : α → Except PyErr β)
    (repr_res : β → String) (handle : Handle)
    (x : α) (args_reprs : List String) (kwargs_items : List (String × String)) :
    List SinkCall × Except PyErr β :=
  let isLog := is_logging_obj handle
  let all_args_str := renderArgs args_reprs kwargs_items
  let startCall :=
    if isLog then SinkCall.info ("Calling " ++ funcName ++ "(" ++ all_args_str ++ ")")
    else SinkCall.write ("INFO: Calling " ++ funcName ++ "(" ++ all_args_str ++ ")\n")
  match func x with
  | Except.ok result =>
    let okCall :=
      if isLog then SinkCall.info (funcName ++ " returned " ++ repr_res result)
      else SinkCall.write ("INFO: " ++ funcName ++ " returned " ++ repr_res result ++ "\n")
    ([startCall, okCall], Except.ok result)
  | Except.error e =>
    let errCall :=
      if isLog then SinkCall.error (funcName ++ " raised " ++ e.kind ++ ": " ++ e.msg)
      else SinkCall.write ("ERROR: " ++ funcName ++ " raised " ++ e.kind ++ ": " ++ e.msg ++ "\n")
    ([startCall, errCall], Except.error e)

/-! ## `solve_quadratic_logger` (src/lr7.py lines 126-181) -/

/-- `solve_quadratic_logger.inner` (src/lr7.py lines 133-181): the specialized
decorator around the pure solver. `py_str` models Python `str()` on the
coefficients (used in messages), `fmt2` models the `{x:.2f}` float format, and
`repr_res` models `str()`/f-string rendering of the result tuple. -/
def solve_quadratic_logger_inner
    (func : PyVal → PyVal → PyVal → Except PyErr (List ℝ))
    (py_str : PyVal → String) (fmt2 : ℝ → String) (repr_res : List ℝ → String)
    (handle : Handle) (a b c : PyVal) :
    List SinkCall × Except PyErr (List ℝ) :=
  let isLog := is_logging_obj handle
  let startRaw :=
    "Calling solve_quadratic(a=" ++ py_str a ++ ", b=" ++ py_str b ++ ", c=" ++ py_str c ++ ")"
  let startCall :=
    if isLog then SinkCall.info startRaw else SinkCall.write ("INFO: " ++ startRaw ++ "\n")
  let coeffs := py_str a ++ ", " ++ py_str b ++ ", " ++ py_str c
  match func a b c with
  | Except.ok result =>
    let classifyCall :=
      match result with
      | [] =>
        let m := "solve_quadratic(" ++ coeffs ++ ") has no real solutions."
        if isLog then SinkCall.warning m else SinkCall.write ("WARNING: " ++ m ++ "\n")
      | x :: rest =>
        match rest with
        | [] =>
          let m := "solve_quadratic(" ++ coeffs ++ ") has one solution: x = " ++ fmt2 x
          if isLog then SinkCall.info m else SinkCall.write ("INFO: " ++ m ++ "\n")
        | y :: _ =>
          let m := "solve_quadratic(" ++ coeffs ++ ") has two solutions: x1 = " ++ fmt2 x
            ++ ", x2 = " ++ fmt2 y
          if isLog then SinkCall.info m else SinkCall.write ("INFO: " ++ m ++ "\n")
    let okCall :=
      if isLog then SinkCall.info ("solve_quadratic returned " ++ repr_res result)
      else SinkCall.write ("INFO: solve_quadratic returned " ++ repr_res result ++ "\n")
    ([startCall, classifyCall, okCall], Except.ok result)
  | Except.error e =>
    let errCall :=
      if isLog then SinkCall.error ("solve_quadratic raised " ++ e.kind ++ ": " ++ e.msg)
      else SinkCall.write ("ERROR: solve_quadratic raised " ++ e.kind ++ ": " ++ e.msg ++ "\n")
    ([startCall, errCall], Except.error e)

/-! ## `get_currencies` (src/lr7.py lines 60-100)

The HTTP round trip and JSON parsing are external collaborators; the model
starts from the parsed payload. -/

/-- A parsed JSON value. Objects are insertion-ordered association lists
(Python dicts). -/
inductive JVal where
  | num (q : ℚ)
  | str (s : String)
  | null
  | arr (xs : List JVal)
  | obj (fields : List (String × JVal))

/-- Dict/field lookup: `data[k]` / `info.get(k)`. Non-objects have no fields. -/
def JVal.get? : JVal → String → Option JVal
  | .obj fields, k => fields.lookup k
  | _, _ => none

/-- `raise KeyError("В ответе API отсутствует ключ 'Valute'")`. -/
def missingValuteErr : PyErr :=
  ⟨"KeyError", "В ответе API отсутствует ключ 'Valute'"⟩

/-- `raise KeyError(f"Валюта '{code}' отсутствует в данных API")`. -/
def unknownCurrencyErr (code : String) : PyErr :=
  ⟨"KeyError", "Валюта '" ++ code ++ "' отсутствует в данных API"⟩

/-- `raise TypeError(f"Курс валюты '{code}' имеет неверный тип или отсутствует")`. -/
def invalidValueErr (code : String) : PyErr :=
  ⟨"TypeError", "Курс валюты '" ++ code ++ "' имеет неверный тип или отсутствует"⟩

/-- Python dict assignment `result[code] = value`: overwrite in place if the
key exists, else append (insertion order preserved). -/
def dictInsert (d : List (String × ℚ)) (k : String) (v : ℚ) : List (String × ℚ) :=
  if d.any (fun p => p.1 == k) then
    d.map (fun p => if p.1 == k then (k, v) else p)
  else
    d ++ [(k, v)]

/-- The `for code in currency_codes` loop of `get_currencies`
(src/lr7.py lines 86-98), carrying the `result` dict. -/
def get_currencies_loop (valute : JVal) :
    List String → List (String × ℚ) → Except PyErr (List (String × ℚ))
  | [], result => Except.ok result
  | code :: rest, result =>
    match valute.get? code with
    | none => Except.error (unknownCurrencyErr code)
    | some currency_info =>
      match currency_info.get? "Value" with
      | some (JVal.num v) => get_currencies_loop valute rest (dictInsert result code v)
      | _ => Except.error (invalidValueErr code)

/-- `get_currencies` (src/lr7.py lines 60-100) after the response has been
fetched and parsed into `data`: require the top-level `Valute` mapping, then
scan the requested codes in order. -/
def get_currencies (currency_codes : List String) (data : JVal) :
    Except PyErr (List (String × ℚ)) :=
  match data.get? "Valute" with
  | none => Except.error missingValuteErr
  | some valute => get_currencies_loop valute currency_codes []

/-- The violation a single requested code triggers against the `Valute`
mapping, if any: the code absent, or its `Value` absent / non-numeric. -/
def codeViolation (valute : JVal) (code : String) : Option PyErr :=
  match valute.get? code with
  | none => some (unknownCurrencyErr code)
  | some currency_info =>
    match currency_info.get? "Value" with
    | some (JVal.num _) => none
    | _ => some (invalidValueErr code)

/-- The numeric `Value` the `Valute` mapping assigns to a code, when valid. -/
def codeValue (valute : JVal) (code : String) : Option ℚ :=
  match valute.get? code with
  | none => none
  | some currency_info =>
    match currency_info.get? "Value" with
    | some (JVal.num v) => some v
    | _ => none

/-! ## Theorems about the pure solver -/

/-- Shared evaluation lemma: the positive-discriminant branch of
`solve_quadratic` returns the two roots in source order. -/
lemma solve_quadratic_pos_disc (qa qb qc : ℚ) (hqa : qa ≠ 0)
    (hd : 0 < qb ^ 2 - 4 * qa * qc) :
    solve_quadratic (.num qa) (.num qb) (.num qc) =
      Except.ok [(-(qb : ℝ) + Real.sqrt ((qb ^ 2 - 4 * qa * qc : ℚ) : ℝ)) / (2 * (qa : ℝ)),
        (-(qb : ℝ) - Real.sqrt ((qb ^ 2 - 4 * qa * qc : ℚ) : ℝ)) / (2 * (qa : ℝ))] := by
  simp [solve_quadratic, PyVal.toNum?, hqa, not_lt.mpr hd.le, hd.ne']

/-- Shared evaluation lemma: `solve_quadratic(1, -3, 2)` returns `(2.0, 1.0)`
(root `(-b + sqrt d)/(2a) = 2` first). -/
lemma solve_quadratic_one_neg3_two :
    solve_quadratic (.num 1) (.num (-3)) (.num 2) = Except.ok [(2 : ℝ), (1 : ℝ)] := by
  rw [solve_quadratic_pos_disc 1 (-3) 2 (by norm_num) (by norm_num)]
  norm_num

/-- C3: the pure quadratic solver `solve(a, b, c)` satisfies the full case
analysis: non-numeric input fails with the `TypeError` (TypeMismatch);
`a=b=c=0` fails with the `ValueError` (DegenerateInfinite); `a=b=0, c≠0`
returns the empty sequence; `a=0, b≠0` returns the single root `-c/b`;
otherwise with `d = b² - 4ac` it returns the empty sequence when `d<0`, the
single root `-b/(2a)` when `d=0`, and two roots when `d>0`. -/
theorem C3_solve_quadratic_case_analysis :
    (∀ a b c : PyVal, (a.toNum? = none ∨ b.toNum? = none ∨ c.toNum? = none) →
      solve_quadratic a b c = Except.error typeMismatchErr) ∧
    (solve_quadratic (.num 0) (.num 0) (.num 0) = Except.error degenerateInfiniteErr) ∧
    (∀ qc : ℚ, qc ≠ 0 →
      solve_quadratic (.num 0) (.num 0) (.num qc) = Except.ok []) ∧
    (∀ qb qc : ℚ, qb ≠ 0 →
      solve_quadratic (.num 0) (.num qb) (.num qc) = Except.ok [((-qc / qb : ℚ) : ℝ)]) ∧
    (∀ qa qb qc : ℚ, qa ≠ 0 →
      (qb ^ 2 - 4 * qa * qc < 0 →
        solve_quadratic (.num qa) (.num qb) (.num qc) = Except.ok []) ∧
      (qb ^ 2 - 4 * qa * qc = 0 →
        solve_quadratic (.num qa) (.num qb) (.num qc) =
          Except.ok [((-qb / (2 * qa) : ℚ) : ℝ)]) ∧
      (0 < qb ^ 2 - 4 * qa * qc →
        ∃ x1 x2 : ℝ,
          solve_quadratic (.num qa) (.num qb) (.num qc) = Except.ok [x1, x2])) := by
  refine ⟨?_, ?_, ?_, ?_, ?_⟩
  · intro a b c h
    cases a with
    | str s => rfl
    | num qa =>
      cases b with
      | str s => rfl
      | num qb =>
        cases c with
        | str s => rfl
        | num qc => simp [PyVal.toNum?] at h
  · simp [solve_quadratic, PyVal.toNum?]
  · intro qc hc
    simp [solve_quadratic, PyVal.toNum?, hc]
  · intro qb qc hb
    simp [solve_quadratic, PyVal.toNum?, hb]
  · intro qa qb qc ha
    refine ⟨?_, ?_, ?_⟩
    · intro hd
      simp [solve_quadratic, PyVal.toNum?, ha, hd]
    · intro hd
      simp [solve_quadratic, PyVal.toNum?, ha, hd]
    · intro hd
      exact ⟨_, _, solve_quadratic_pos_disc qa qb qc ha hd⟩

/-- C3 witness: concrete instantiations discharging each hypothesis of the
case analysis. -/
theorem C3_solve_quadratic_case_analysis_witness :
    solve_quadratic (.str "x") (.num 1) (.num 1) = Except.error typeMismatchErr ∧
    solve_quadratic (.num 0) (.num 0) (.num 5) = Except.ok [] ∧
    solve_quadratic (.num 0) (.num 2) (.num 4) = Except.ok [((-4 / 2 : ℚ) : ℝ)] ∧
    solve_quadratic (.num 1) (.num 0) (.num 1) = Except.ok [] ∧
    solve_quadratic (.num 1) (.num 2) (.num 1) = Except.ok [((-2 / (2 * 1) : ℚ) : ℝ)] ∧
    (∃ x1 x2 : ℝ, solve_quadratic (.num 1) (.num (-3)) (.num 2) = Except.ok [x1, x2]) := by
  obtain ⟨h1, _, h3, h4, h5⟩ := C3_solve_quadratic_case_analysis
  refine ⟨h1 _ _ _ (Or.inl rfl), h3 5 (by norm_num), h4 2 4 (by norm_num),
    (h5 1 0 1 (by norm_num)).1 (by norm_num),
    (h5 1 2 1 (by norm_num)).2.1 (by norm_num),
    (h5 1 (-3) 2 (by norm_num)).2.2 (by norm_num)⟩

/-- C4 counterexample: the claim's first test vector is false on the code —
`solve(1, -3, 2)` does not return `(1.0, 2.0)`; the code computes
`x1 = (-b + sqrt d)/(2a) = 2.0` first, so it returns `(2.0, 1.0)`. -/
theorem C4_first_vector_counterexample :
    solve_quadratic (.num 1) (.num (-3)) (.num 2) ≠ Except.ok [(1 : ℝ), (2 : ℝ)] := by
  rw [solve_quadratic_one_neg3_two]
  intro h
  have : (2 : ℝ) = 1 := by
    have := Except.ok.inj h
    exact (List.cons.injEq _ _ _ _ ▸ this).1
  norm_num at this

/-- C4 (amended): the test vectors as the code computes them:
`solve(1,-3,2) = (2.0, 1.0)` (not `(1.0, 2.0)`); `solve(1,0,1) = ()`;
`solve(0,0,5) = ()`; `solve(0,2,4) = (-2.0,)`; `solve(0,0,0)` fails with the
`ValueError` (DegenerateInfinite); `solve("x",1,1)` fails with the
`TypeError` (TypeMismatch). -/
theorem C4_test_vectors_amended :
    solve_quadratic (.num 1) (.num (-3)) (.num 2) = Except.ok [(2 : ℝ), (1 : ℝ)] ∧
    solve_quadratic (.num 1) (.num 0) (.num 1) = Except.ok [] ∧
    solve_quadratic (.num 0) (.num 0) (.num 5) = Except.ok [] ∧
    solve_quadratic (.num 0) (.num 2) (.num 4) = Except.ok [(-2 : ℝ)] ∧
    solve_quadratic (.num 0) (.num 0) (.num 0) = Except.error degenerateInfiniteErr ∧
    solve_quadratic (.str "x") (.num 1) (.num 1) = Except.error typeMismatchErr := by
  refine ⟨solve_quadratic_one_neg3_two, ?_, ?_, ?_, ?_, rfl⟩
  · norm_num [solve_quadratic, PyVal.toNum?]
  · norm_num [solve_quadratic, PyVal.toNum?]
  · norm_num [solve_quadratic, PyVal.toNum?]
  · norm_num [solve_quadratic, PyVal.toNum?]

/-- C5: for numeric coefficients with `a ≠ 0` and positive discriminant, the
solver returns exactly two roots in deterministic order — the root
`(-b + sqrt d)/(2a)` precedes `(-b - sqrt d)/(2a)`. -/
theorem C5_two_roots_deterministic_order (qa qb qc : ℚ) (hqa : qa ≠ 0)
    (hd : 0 < qb ^ 2 - 4 * qa * qc) :
    solve_quadratic (.num qa) (.num qb) (.num qc) =
      Except.ok [(-(qb : ℝ) + Real.sqrt ((qb ^ 2 - 4 * qa * qc : ℚ) : ℝ)) / (2 * (qa : ℝ)),
        (-(qb : ℝ) - Real.sqrt ((qb ^ 2 - 4 * qa * qc : ℚ) : ℝ)) / (2 * (qa : ℝ))] :=
  solve_quadratic_pos_disc qa qb qc hqa hd

/-- C5 witness: the order theorem instantiated at `solve(1, -3, 2)`. -/
theorem C5_two_roots_deterministic_order_witness :
    solve_quadratic (.num 1) (.num (-3)) (.num 2) =
      Except.ok
        [(-((-3 : ℚ) : ℝ) + Real.sqrt (((-3 : ℚ) ^ 2 - 4 * 1 * 2 : ℚ) : ℝ)) / (2 * ((1 : ℚ) : ℝ)),
         (-((-3 : ℚ) : ℝ) - Real.sqrt (((-3 : ℚ) ^ 2 - 4 * 1 * 2 : ℚ) : ℝ)) / (2 * ((1 : ℚ) : ℝ))] :=
  C5_two_roots_deterministic_order 1 (-3) 2 (by norm_num) (by norm_num)

/-- C10: with `a ≠ 0` and positive discriminant, the two returned roots are
strictly decreasing when `a > 0` and strictly increasing when `a < 0` — the
solver never sorts them into ascending order independent of the sign of `a`. -/
theorem C10_root_order_depends_on_sign (qa qb qc : ℚ) (hqa : qa ≠ 0)
    (hd : 0 < qb ^ 2 - 4 * qa * qc) :
    ∃ x1 x2 : ℝ,
      solve_quadratic (.num qa) (.num qb) (.num qc) = Except.ok [x1, x2] ∧
      (0 < qa → x2 < x1) ∧ (qa < 0 → x1 < x2) := by
  have hs : 0 < Real.sqrt ((qb ^ 2 - 4 * qa * qc : ℚ) : ℝ) :=
    Real.sqrt_pos.mpr (by exact_mod_cast hd)
  refine ⟨_, _, solve_quadratic_pos_disc qa qb qc hqa hd, fun ha => ?_, fun ha => ?_⟩
  · have h2a : (0 : ℝ) < 2 * (qa : ℝ) := by
      have hq : (0 : ℝ) < (qa : ℝ) := by exact_mod_cast ha
      linarith
    exact (div_lt_div_iff_of_pos_right h2a).mpr (by linarith)
  · have h2a : 2 * (qa : ℝ) < 0 := by
      have hq : (qa : ℝ) < 0 := by exact_mod_cast ha
      linarith
    exact div_lt_div_of_neg_of_lt h2a (by linarith)

/-- C10 witness: for `a = 1 > 0` the roots of `solve(1, -3, 2)` come out
strictly decreasing; for `a = -1 < 0` the roots of `solve(-1, 0, 1)` come out
strictly increasing. -/
theorem C10_root_order_depends_on_sign_witness :
    (∃ x1 x2 : ℝ,
      solve_quadratic (.num 1) (.num (-3)) (.num 2) = Except.ok [x1, x2] ∧ x2 < x1) ∧
    (∃ x1 x2 : ℝ,
      solve_quadratic (.num (-1)) (.num 0) (.num 1) = Except.ok [x1, x2] ∧ x1 < x2) := by
  constructor
  · obtain ⟨x1, x2, h, hpos, _⟩ :=
      C10_root_order_depends_on_sign 1 (-3) 2 (by norm_num) (by norm_num)
    exact ⟨x1, x2, h, hpos (by norm_num)⟩
  · obtain ⟨x1, x2, h, _, hneg⟩ :=
      C10_root_order_depends_on_sign (-1) 0 1 (by norm_num) (by norm_num)
    exact ⟨x1, x2, h, hneg (by norm_num)⟩

/-! ## Theorems about the generic logging decorator -/

/-- An info-level logical event, in either sink mode: an `info(...)` method
call, or a written line framed `"INFO: {msg}\n"`. -/
def isInfoEvent (c : SinkCall) : Prop :=
  (∃ m, c = SinkCall.info m) ∨ (∃ m, c = SinkCall.write ("INFO: " ++ m ++ "\n"))

/-- A warning-level logical event, in either sink mode. -/
def isWarningEvent (c : SinkCall) : Prop :=
  (∃ m, c = SinkCall.warning m) ∨ (∃ m, c = SinkCall.write ("WARNING: " ++ m ++ "\n"))

/-- An error-level logical event, in either sink mode: an `error(...)` method
call, or a written line framed `"ERROR: {msg}\n"`. -/
def isErrorEvent (c : SinkCall) : Prop :=
  (∃ m, c = SinkCall.error m) ∨ (∃ m, c = SinkCall.write ("ERROR: " ++ m ++ "\n"))

/-- C1: when the target does not raise, the wrapped function returns exactly
the target's value — the wrapper alters only the log emissions, never the
returned outcome. -/
theorem C1_wrapper_preserves_value {α β : Type} (funcName : String)
    (func : α → Except PyErr β) (repr_res : β → String) (handle : Handle)
    (x : α) (args_reprs : List String) (kwargs_items : List (String × String))
    (r : β) (h : func x = Except.ok r) :
    (logger_inner funcName func repr_res handle x args_reprs kwargs_items).2 =
        Except.ok r ∧
    (logger_inner funcName func repr_res handle x args_reprs kwargs_items).2 =
        func x := by
  constructor <;> simp [logger_inner, h]

/-- C1 witness: wrapping `test_func(x) = 2·x` over a stream sink at `x = 5`
still returns `10`. -/
theorem C1_wrapper_preserves_value_witness :
    (logger_inner "test_func" (fun n : ℚ => Except.ok (n * 2)) (fun _ => "10")
        ⟨false, false⟩ 5 ["5"] []).2 = Except.ok (10 : ℚ) :=
  (C1_wrapper_preserves_value "test_func" (fun n : ℚ => Except.ok (n * 2))
    (fun _ => "10") ⟨false, false⟩ 5 ["5"] [] 10 (by norm_num)).1

/-- C2: when the target raises `e`, the wrapped function propagates an error
of the same kind and message, and the sink has received exactly two events —
an info-level call-start event mentioning `Calling`, then an error-level
event mentioning the error's kind and message, in that order. -/
theorem C2_error_propagation_and_log {α β : Type} (funcName : String)
    (func : α → Except PyErr β) (repr_res : β → String) (handle : Handle)
    (x : α) (args_reprs : List String) (kwargs_items : List (String × String))
    (e : PyErr) (h : func x = Except.error e) :
    ∃ startEvt errEvt : SinkCall,
      logger_inner funcName func repr_res handle x args_reprs kwargs_items =
        ([startEvt, errEvt], Except.error e) ∧
      isInfoEvent startEvt ∧ startEvt.mentions "Calling" ∧
      isErrorEvent errEvt ∧ errEvt.mentions e.kind ∧ errEvt.mentions e.msg := by
  by_cases hmode : is_logging_obj handle = true
  · refine ⟨SinkCall.info ("Calling " ++ funcName ++ "(" ++
        renderArgs args_reprs kwargs_items ++ ")"),
      SinkCall.error (funcName ++ " raised " ++ e.kind ++ ": " ++ e.msg),
      ?_, Or.inl ⟨_, rfl⟩, ?_, Or.inl ⟨_, rfl⟩, ?_, ?_⟩
    · simp [logger_inner, h, hmode]
    · refine ⟨"", " " ++ funcName ++ "(" ++ renderArgs args_reprs kwargs_items ++ ")", ?_⟩
      simp only [SinkCall.payload, String.append_assoc]
      rfl
    · refine ⟨funcName ++ " raised ", ": " ++ e.msg, ?_⟩
      simp only [SinkCall.payload, String.append_assoc]
    · refine ⟨funcName ++ " raised " ++ e.kind ++ ": ", "", ?_⟩
      simp only [SinkCall.payload, String.append_assoc, String.append_empty]
  · rw [Bool.not_eq_true] at hmode
    refine ⟨SinkCall.write ("INFO: " ++ ("Calling " ++ funcName ++ "(" ++
        renderArgs args_reprs kwargs_items ++ ")") ++ "\n"),
      SinkCall.write ("ERROR: " ++ (funcName ++ " raised " ++ e.kind ++ ": " ++ e.msg) ++ "\n"),
      ?_, Or.inr ⟨_, rfl⟩, ?_, Or.inr ⟨_, rfl⟩, ?_, ?_⟩
    · simp [logger_inner, h, hmode]
      constructor
      · simp only [String.append_assoc]
        rfl
      · simp only [String.append_assoc]
    · refine ⟨"INFO: ",
        " " ++ funcName ++ "(" ++ renderArgs args_reprs kwargs_items ++ ")" ++ "\n", ?_⟩
      simp only [SinkCall.payload, String.append_assoc]
      rfl
    · refine ⟨"ERROR: " ++ funcName ++ " raised ", ": " ++ e.msg ++ "\n", ?_⟩
      simp only [SinkCall.payload, String.append_assoc]
    · refine ⟨"ERROR: " ++ funcName ++ " raised " ++ e.kind ++ ": ", "\n", ?_⟩
      simp only [SinkCall.payload, String.append_assoc]

/-- C2 witness: a target that raises `ValueError: Test error` through a
stream sink propagates the same error after a start and an error event. -/
theorem C2_error_propagation_and_log_witness :
    ∃ startEvt errEvt : SinkCall,
      logger_inner "test_func_error" (fun _ : Unit => (Except.error ⟨"ValueError", "Test error"⟩ :
          Except PyErr ℚ)) (fun _ => "") ⟨false, false⟩ () [] [] =
        ([startEvt, errEvt], Except.error ⟨"ValueError", "Test error"⟩) ∧
      isInfoEvent startEvt ∧ startEvt.mentions "Calling" ∧
      isErrorEvent errEvt ∧ errEvt.mentions "ValueError" ∧ errEvt.mentions "Test error" :=
  C2_error_propagation_and_log "test_func_error"
    (fun _ : Unit => (Except.error ⟨"ValueError", "Test error"⟩ : Except PyErr ℚ))
    (fun _ => "") ⟨false, false⟩ () [] [] ⟨"ValueError", "Test error"⟩ rfl

/-- Evaluation helper: a leveled sink on a successful call receives the two
raw messages via `info`. -/
lemma logger_inner_ok_leveled {α β : Type} (funcName : String)
    (func : α → Except PyErr β) (repr_res : β → String) (handle : Handle)
    (x : α) (args_reprs : List String) (kwargs_items : List (String × String))
    (r : β) (hmode : is_logging_obj handle = true) (hfx : func x = Except.ok r) :
    logger_inner funcName func repr_res handle x args_reprs kwargs_items =
      ([SinkCall.info ("Calling " ++ funcName ++ "(" ++
          renderArgs args_reprs kwargs_items ++ ")"),
        SinkCall.info (funcName ++ " returned " ++ repr_res r)], Except.ok r) := by
  simp [logger_inner, hfx, hmode]

/-- Evaluation helper: a stream sink on a successful call receives the two
framed lines via `write`. -/
lemma logger_inner_ok_stream {α β : Type} (funcName : String)
    (func : α → Except PyErr β) (repr_res : β → String) (handle : Handle)
    (x : α) (args_reprs : List String) (kwargs_items : List (String × String))
    (r : β) (hmode : is_logging_obj handle = false) (hfx : func x = Except.ok r) :
    logger_inner funcName func repr_res handle x args_reprs kwargs_items =
      ([SinkCall.write ("INFO: Calling " ++ funcName ++ "(" ++
          renderArgs args_reprs kwargs_items ++ ")\n"),
        SinkCall.write ("INFO: " ++ funcName ++ " returned " ++ repr_res r ++ "\n")],
        Except.ok r) := by
  simp [logger_inner, hfx, hmode]

/-- Evaluation helper: a leveled sink on a failing call receives the raw
start message via `info` and the raw error message via `error`. -/
lemma logger_inner_err_leveled {α β : Type} (funcName : String)
    (func : α → Except PyErr β) (repr_res : β → String) (handle : Handle)
    (x : α) (args_reprs : List String) (kwargs_items : List (String × String))
    (e : PyErr) (hmode : is_logging_obj handle = true) (hfx : func x = Except.error e) :
    logger_inner funcName func repr_res handle x args_reprs kwargs_items =
      ([SinkCall.info ("Calling " ++ funcName ++ "(" ++
          renderArgs args_reprs kwargs_items ++ ")"),
        SinkCall.error (funcName ++ " raised " ++ e.kind ++ ": " ++ e.msg)],
        Except.error e) := by
  simp [logger_inner, hfx, hmode]

/-- Evaluation helper: a stream sink on a failing call receives the two
framed lines via `write`. -/
lemma logger_inner_err_stream {α β : Type} (funcName : String)
    (func : α → Except PyErr β) (repr_res : β → String) (handle : Handle)
    (x : α) (args_reprs : List String) (kwargs_items : List (String × String))
    (e : PyErr) (hmode : is_logging_obj handle = false) (hfx : func x = Except.error e) :
    logger_inner funcName func repr_res handle x args_reprs kwargs_items =
      ([SinkCall.write ("INFO: Calling " ++ funcName ++ "(" ++
          renderArgs args_reprs kwargs_items ++ ")\n"),
        SinkCall.write ("ERROR: " ++ funcName ++ " raised " ++ e.kind ++ ": " ++
          e.msg ++ "\n")],
        Except.error e) := by
  simp [logger_inner, hfx, hmode]

/-- The `"{LEVEL}: {message}\n"` stream framing of a leveled event. -/
def streamLine (c : SinkCall) : SinkCall :=
  SinkCall.write (((SinkCall.level? c).getD "") ++ ": " ++ c.payload ++ "\n")

/-- C9: all emissions dispatch on the sink's capability. A leveled sink
receives only leveled method calls, each carrying the raw message; a stream
sink receives, per logical event, exactly one written string of the form
`"{LEVEL}: {message}\n"` framing that same raw message. Through a stream sink
a successful call produces two lines mentioning, in order, `Calling` then
`returned`; a failing call produces two lines mentioning `Calling` then
`ERROR` and the error kind name. -/
theorem C9_sink_capability_dispatch {α β : Type} (funcName : String)
    (func : α → Except PyErr β) (repr_res : β → String) (hL hS : Handle)
    (x : α) (args_reprs : List String) (kwargs_items : List (String × String))
    (hLmode : is_logging_obj hL = true) (hSmode : is_logging_obj hS = false) :
    (∀ c ∈ (logger_inner funcName func repr_res hL x args_reprs kwargs_items).1,
        (SinkCall.level? c).isSome = true) ∧
    ((logger_inner funcName func repr_res hS x args_reprs kwargs_items).1 =
      ((logger_inner funcName func repr_res hL x args_reprs kwargs_items).1).map
        streamLine) ∧
    (∀ r : β, func x = Except.ok r →
      ∃ l1 l2 : SinkCall,
        (logger_inner funcName func repr_res hS x args_reprs kwargs_items).1 = [l1, l2] ∧
        l1.mentions "Calling" ∧ l2.mentions "returned") ∧
    (∀ e : PyErr, func x = Except.error e →
      ∃ l1 l2 : SinkCall,
        (logger_inner funcName func repr_res hS x args_reprs kwargs_items).1 = [l1, l2] ∧
        l1.mentions "Calling" ∧ l2.mentions "ERROR" ∧ l2.mentions e.kind) := by
  cases hfx : func x with
  | ok r =>
    rw [logger_inner_ok_leveled funcName func repr_res hL x args_reprs kwargs_items r
        hLmode hfx,
      logger_inner_ok_stream funcName func repr_res hS x args_reprs kwargs_items r
        hSmode hfx]
    refine ⟨?_, ?_, ?_, ?_⟩
    · intro c hc
      simp only [List.mem_cons, List.not_mem_nil, or_false] at hc
      rcases hc with hc | hc
      · rw [hc]; rfl
      · rw [hc]; rfl
    · simp only [List.map, streamLine, SinkCall.level?, SinkCall.payload, Option.getD,
        String.append_assoc]
      rfl
    · intro r' hr'
      refine ⟨_, _, rfl, ?_, ?_⟩
      · refine ⟨"INFO: ",
          " " ++ funcName ++ "(" ++ renderArgs args_reprs kwargs_items ++ ")\n", ?_⟩
        simp only [SinkCall.payload, String.append_assoc]
        rfl
      · refine ⟨"INFO: " ++ funcName ++ " ", " " ++ repr_res r ++ "\n", ?_⟩
        simp only [SinkCall.payload, String.append_assoc]
        rfl
    · intro e he
      simp at he
  | error e =>
    rw [logger_inner_err_leveled funcName func repr_res hL x args_reprs kwargs_items e
        hLmode hfx,
      logger_inner_err_stream funcName func repr_res hS x args_reprs kwargs_items e
        hSmode hfx]
    refine ⟨?_, ?_, ?_, ?_⟩
    · intro c hc
      simp only [List.mem_cons, List.not_mem_nil, or_false] at hc
      rcases hc with hc | hc
      · rw [hc]; rfl
      · rw [hc]; rfl
    · simp only [List.map, streamLine, SinkCall.level?, SinkCall.payload, Option.getD,
        String.append_assoc]
      rfl
    · intro r' hr'
      simp at hr'
    · intro e' he'
      cases he'
      refine ⟨_, _, rfl, ?_, ?_, ?_⟩
      · refine ⟨"INFO: ",
          " " ++ funcName ++ "(" ++ renderArgs args_reprs kwargs_items ++ ")\n", ?_⟩
        simp only [SinkCall.payload, String.append_assoc]
        rfl
      · refine ⟨"", ": " ++ funcName ++ " raised " ++ e.kind ++ ": " ++ e.msg ++ "\n", ?_⟩
        simp only [SinkCall.payload, String.append_assoc, String.empty_append]
        rfl
      · refine ⟨"ERROR: " ++ funcName ++ " raised ", ": " ++ e.msg ++ "\n", ?_⟩
        simp only [SinkCall.payload, String.append_assoc]

/-- C9 witness: concrete leveled and stream sinks around a successful call
produce the dispatched emission lists with the stated line contents. -/
theorem C9_sink_capability_dispatch_witness :
    ∃ l1 l2 : SinkCall,
      (logger_inner "test_func" (fun n : ℚ => Except.ok (n * 2)) (fun _ => "10")
          ⟨false, false⟩ 5 ["5"] []).1 = [l1, l2] ∧
      l1.mentions "Calling" ∧ l2.mentions "returned" := by
  obtain ⟨-, -, h3, -⟩ := C9_sink_capability_dispatch "test_func"
    (fun n : ℚ => Except.ok (n * 2)) (fun _ => "10") ⟨true, true⟩ ⟨false, false⟩
    5 ["5"] [] rfl rfl
  exact h3 10 (by norm_num)

/-- C8: on every successful solve, the specialized wrapper emits exactly
three events — start, outcome classification, then the generic returned
event. The classification is a warning-level "has no real solutions" event
for a length-0 result, an info-level "has one solution: x = …" event (root
formatted to 2 decimal places) for length 1, and an info-level "has two
solutions: x1 = …, x2 = …" event for length 2; the generic info-level
"returned {value}" event always follows it. -/
theorem C8_outcome_classified_logging
    (func : PyVal → PyVal → PyVal → Except PyErr (List ℝ))
    (py_str : PyVal → String) (fmt2 : ℝ → String) (repr_res : List ℝ → String)
    (handle : Handle) (a b c : PyVal) (r : List ℝ)
    (h : func a b c = Except.ok r) :
    ∃ startEvt classifyEvt okEvt : SinkCall,
      solve_quadratic_logger_inner func py_str fmt2 repr_res handle a b c =
        ([startEvt, classifyEvt, okEvt], Except.ok r) ∧
      (r = [] → isWarningEvent classifyEvt ∧
        classifyEvt.mentions "has no real solutions") ∧
      (∀ x : ℝ, r = [x] → isInfoEvent classifyEvt ∧
        classifyEvt.mentions ("has one solution: x = " ++ fmt2 x)) ∧
      (∀ x y : ℝ, r = [x, y] → isInfoEvent classifyEvt ∧
        classifyEvt.mentions
          ("has two solutions: x1 = " ++ fmt2 x ++ ", x2 = " ++ fmt2 y)) ∧
      isInfoEvent okEvt ∧ okEvt.mentions ("returned " ++ repr_res r) := by
  by_cases hmode : is_logging_obj handle = true
  · match r, h with
    | [], h =>
      refine ⟨SinkCall.info ("Calling solve_quadratic(a=" ++ py_str a ++ ", b=" ++
          py_str b ++ ", c=" ++ py_str c ++ ")"),
        SinkCall.warning ("solve_quadratic(" ++ (py_str a ++ ", " ++ py_str b ++ ", " ++
          py_str c) ++ ") has no real solutions."),
        SinkCall.info ("solve_quadratic returned " ++ repr_res []),
        ?_, ?_, ?_, ?_, Or.inl ⟨_, rfl⟩, ?_⟩
      · simp [solve_quadratic_logger_inner, hmode, h]
      · refine fun _ => ⟨Or.inl ⟨_, rfl⟩,
          ⟨"solve_quadratic(" ++ (py_str a ++ ", " ++ py_str b ++ ", " ++ py_str c) ++
            ") ", ".", ?_⟩⟩
        simp only [SinkCall.payload, String.append_assoc]
        rfl
      · intro x hx
        simp at hx
      · intro x y hxy
        simp at hxy
      · refine ⟨"solve_quadratic ", "", ?_⟩
        simp only [SinkCall.payload, String.append_assoc, String.append_empty]
        rfl
    | [x], h =>
      refine ⟨SinkCall.info ("Calling solve_quadratic(a=" ++ py_str a ++ ", b=" ++
          py_str b ++ ", c=" ++ py_str c ++ ")"),
        SinkCall.info ("solve_quadratic(" ++ (py_str a ++ ", " ++ py_str b ++ ", " ++
          py_str c) ++ ") has one solution: x = " ++ fmt2 x),
        SinkCall.info ("solve_quadratic returned " ++ repr_res [x]),
        ?_, ?_, ?_, ?_, Or.inl ⟨_, rfl⟩, ?_⟩
      · simp [solve_quadratic_logger_inner, hmode, h]
      · intro hx
        simp at hx
      · intro x' hx'
        have hxx : x' = x := by simpa using hx'.symm
        subst hxx
        refine ⟨Or.inl ⟨_, rfl⟩,
          ⟨"solve_quadratic(" ++ (py_str a ++ ", " ++ py_str b ++ ", " ++ py_str c) ++
            ") ", "", ?_⟩⟩
        simp only [SinkCall.payload, String.append_assoc, String.append_empty]
        rfl
      · intro x' y' hxy
        simp at hxy
      · refine ⟨"solve_quadratic ", "", ?_⟩
        simp only [SinkCall.payload, String.append_assoc, String.append_empty]
        rfl
    | x :: y :: rest, h =>
      refine ⟨SinkCall.info ("Calling solve_quadratic(a=" ++ py_str a ++ ", b=" ++
          py_str b ++ ", c=" ++ py_str c ++ ")"),
        SinkCall.info ("solve_quadratic(" ++ (py_str a ++ ", " ++ py_str b ++ ", " ++
          py_str c) ++ ") has two solutions: x1 = " ++ fmt2 x ++ ", x2 = " ++ fmt2 y),
        SinkCall.info ("solve_quadratic returned " ++ repr_res (x :: y :: rest)),
        ?_, ?_, ?_, ?_, Or.inl ⟨_, rfl⟩, ?_⟩
      · simp [solve_quadratic_logger_inner, hmode, h]
      · intro hx
        simp at hx
      · intro x' hx'
        simp at hx'
      · intro x' y' hxy
        obtain ⟨hx, hy, hrest⟩ : x = x' ∧ y = y' ∧ rest = [] := by simpa using hxy
        subst hx; subst hy
        refine ⟨Or.inl ⟨_, rfl⟩,
          ⟨"solve_quadratic(" ++ (py_str a ++ ", " ++ py_str b ++ ", " ++ py_str c) ++
            ") ", "", ?_⟩⟩
        simp only [SinkCall.payload, String.append_assoc, String.append_empty]
        rfl
      · refine ⟨"solve_quadratic ", "", ?_⟩
        simp only [SinkCall.payload, String.append_assoc, String.append_empty]
        rfl
  · rw [Bool.not_eq_true] at hmode
    match r, h with
    | [], h =>
      refine ⟨SinkCall.write ("INFO: " ++ ("Calling solve_quadratic(a=" ++ py_str a ++
          ", b=" ++ py_str b ++ ", c=" ++ py_str c ++ ")") ++ "\n"),
        SinkCall.write ("WARNING: " ++ ("solve_quadratic(" ++ (py_str a ++ ", " ++
          py_str b ++ ", " ++ py_str c) ++ ") has no real solutions.") ++ "\n"),
        SinkCall.write ("INFO: solve_quadratic returned " ++ repr_res [] ++ "\n"),
        ?_, ?_, ?_, ?_, Or.inr ⟨_, rfl⟩, ?_⟩
      · simp [solve_quadratic_logger_inner, hmode, h]
      · refine fun _ => ⟨Or.inr ⟨_, rfl⟩,
          ⟨"WARNING: " ++ ("solve_quadratic(" ++ (py_str a ++ ", " ++ py_str b ++ ", " ++
            py_str c) ++ ") "), "." ++ "\n", ?_⟩⟩
        simp only [SinkCall.payload, String.append_assoc]
        rfl
      · intro x hx
        simp at hx
      · intro x y hxy
        simp at hxy
      · refine ⟨"INFO: solve_quadratic ", "\n", ?_⟩
        simp only [SinkCall.payload, String.append_assoc]
        rfl
    | [x], h =>
      refine ⟨SinkCall.write ("INFO: " ++ ("Calling solve_quadratic(a=" ++ py_str a ++
          ", b=" ++ py_str b ++ ", c=" ++ py_str c ++ ")") ++ "\n"),
        SinkCall.write ("INFO: " ++ ("solve_quadratic(" ++ (py_str a ++ ", " ++
          py_str b ++ ", " ++ py_str c) ++ ") has one solution: x = " ++ fmt2 x) ++ "\n"),
        SinkCall.write ("INFO: solve_quadratic returned " ++ repr_res [x] ++ "\n"),
        ?_, ?_, ?_, ?_, Or.inr ⟨_, rfl⟩, ?_⟩
      · simp [solve_quadratic_logger_inner, hmode, h]
      · intro hx
        simp at hx
      · intro x' hx'
        have hxx : x' = x := by simpa using hx'.symm
        subst hxx
        refine ⟨Or.inr ⟨_, rfl⟩,
          ⟨"INFO: " ++ ("solve_quadratic(" ++ (py_str a ++ ", " ++ py_str b ++ ", " ++
            py_str c) ++ ") "), "\n", ?_⟩⟩
        simp only [SinkCall.payload, String.append_assoc]
        rfl
      · intro x' y' hxy
        simp at hxy
      · refine ⟨"INFO: solve_quadratic ", "\n", ?_⟩
        simp only [SinkCall.payload, String.append_assoc]
        rfl
    | x :: y :: rest, h =>
      refine ⟨SinkCall.write ("INFO: " ++ ("Calling solve_quadratic(a=" ++ py_str a ++
          ", b=" ++ py_str b ++ ", c=" ++ py_str c ++ ")") ++ "\n"),
        SinkCall.write ("INFO: " ++ ("solve_quadratic(" ++ (py_str a ++ ", " ++
          py_str b ++ ", " ++ py_str c) ++ ") has two solutions: x1 = " ++ fmt2 x ++
          ", x2 = " ++ fmt2 y) ++ "\n"),
        SinkCall.write ("INFO: solve_quadratic returned " ++ repr_res (x :: y :: rest) ++
          "\n"),
        ?_, ?_, ?_, ?_, Or.inr ⟨_, rfl⟩, ?_⟩
      · simp [solve_quadratic_logger_inner, hmode, h]
      · intro hx
        simp at hx
      · intro x' hx'
        simp at hx'
      · intro x' y' hxy
        obtain ⟨hx, hy, hrest⟩ : x = x' ∧ y = y' ∧ rest = [] := by simpa using hxy
        subst hx; subst hy
        refine ⟨Or.inr ⟨_, rfl⟩,
          ⟨"INFO: " ++ ("solve_quadratic(" ++ (py_str a ++ ", " ++ py_str b ++ ", " ++
            py_str c) ++ ") "), "\n", ?_⟩⟩
        simp only [SinkCall.payload, String.append_assoc]
        rfl
      · refine ⟨"INFO: solve_quadratic ", "\n", ?_⟩
        simp only [SinkCall.payload, String.append_assoc]
        rfl

/-- C8 witness: a no-real-solutions outcome through a stream sink emits the
warning-level classification event between start and returned. -/
theorem C8_outcome_classified_logging_witness :
    ∃ startEvt classifyEvt okEvt : SinkCall,
      solve_quadratic_logger_inner (fun _ _ _ => Except.ok []) (fun _ => "1")
          (fun _ => "0.00") (fun _ => "()") ⟨false, false⟩
          (.num 1) (.num 0) (.num 1) =
        ([startEvt, classifyEvt, okEvt], Except.ok []) ∧
      isWarningEvent classifyEvt ∧ classifyEvt.mentions "has no real solutions" := by
  obtain ⟨s, cl, ok, hpair, hempty, -, -, -, -⟩ :=
    C8_outcome_classified_logging (fun _ _ _ => Except.ok []) (fun _ => "1")
      (fun _ => "0.00") (fun _ => "()") ⟨false, false⟩ (.num 1) (.num 0) (.num 1) [] rfl
  obtain ⟨hw, hm⟩ := hempty rfl
  exact ⟨s, cl, ok, hpair, hw, hm⟩

/-! ## Theorems about `get_currencies` -/

/-- Python dict assignment of a fresh key appends it. -/
lemma dictInsert_of_fresh (d : List (String × ℚ)) (k : String) (v : ℚ)
    (h : d.any (fun p => p.1 == k) = false) :
    dictInsert d k v = d ++ [(k, v)] := by
  simp [dictInsert, h]

/-- Inversion: a code with no violation has a record with a numeric `Value`. -/
lemma codeViolation_eq_none_inv (valute : JVal) (cd : String)
    (h : codeViolation valute cd = none) :
    ∃ info v, valute.get? cd = some info ∧ info.get? "Value" = some (JVal.num v) := by
  rcases hget : valute.get? cd with _ | info
  · simp [codeViolation, hget] at h
  · rcases hval : info.get? "Value" with _ | jv
    · simp [codeViolation, hget, hval] at h
    · cases jv with
      | num v => exact ⟨info, v, rfl, hval⟩
      | str s => simp [codeViolation, hget, hval] at h
      | null => simp [codeViolation, hget, hval] at h
      | arr xs => simp [codeViolation, hget, hval] at h
      | obj fs => simp [codeViolation, hget, hval] at h

/-- Success invariant of the scanning loop: the accumulated dict grows by
exactly the scanned codes, in order, each bound to its `Value`. -/
lemma get_currencies_loop_ok (valute : JVal) (codes : List String) :
    ∀ (acc m : List (String × ℚ)),
      get_currencies_loop valute codes acc = Except.ok m →
      (∀ cd ∈ codes, ∀ p ∈ acc, p.1 ≠ cd) →
      codes.Nodup →
      m.map Prod.fst = acc.map Prod.fst ++ codes ∧
      (∀ p ∈ m, p ∈ acc ∨ codeValue valute p.1 = some p.2) := by
  induction codes with
  | nil =>
    intro acc m h _ _
    simp only [get_currencies_loop, Except.ok.injEq] at h
    subst h
    exact ⟨by simp, fun p hp => Or.inl hp⟩
  | cons code rest ih =>
    intro acc m h hdisj hnd
    rcases hget : valute.get? code with _ | info
    · simp [get_currencies_loop, hget] at h
    · rcases hval : info.get? "Value" with _ | jv
      · simp [get_currencies_loop, hget, hval] at h
      · cases jv with
        | num v =>
          simp only [get_currencies_loop, hget, hval] at h
          have hfresh : acc.any (fun p => p.1 == code) = false := by
            simp only [List.any_eq_false]
            intro p hp
            simpa using hdisj code (by simp) p hp
          rw [dictInsert_of_fresh acc code v hfresh] at h
          have hcode_notin : code ∉ rest := (List.nodup_cons.mp hnd).1
          obtain ⟨hmap, hvals⟩ := ih (acc ++ [(code, v)]) m h
            (by
              intro cd hcd p hp
              rcases List.mem_append.mp hp with hpacc | hpnew
              · exact hdisj cd (List.mem_cons_of_mem _ hcd) p hpacc
              · have hpv : p = (code, v) := by simpa using hpnew
                subst hpv
                intro hcontra
                have hpc : code = cd := hcontra
                exact hcode_notin (by rwa [hpc]))
            (List.nodup_cons.mp hnd).2
          constructor
          · simpa [List.map_append] using hmap
          · intro p hp
            rcases hvals p hp with hin | hcv
            · rcases List.mem_append.mp hin with hpacc | hpnew
              · exact Or.inl hpacc
              · have hpv : p = (code, v) := by simpa using hpnew
                subst hpv
                exact Or.inr (by simp [codeValue, hget, hval])
            · exact Or.inr hcv
        | str s => simp [get_currencies_loop, hget, hval] at h
        | null => simp [get_currencies_loop, hget, hval] at h
        | arr xs => simp [get_currencies_loop, hget, hval] at h
        | obj fs => simp [get_currencies_loop, hget, hval] at h

/-- Failure inversion of the scanning loop: an error comes from the first
violating code, all earlier codes being violation-free. -/
lemma get_currencies_loop_err (valute : JVal) (codes : List String) :
    ∀ (acc : List (String × ℚ)) (e : PyErr),
      get_currencies_loop valute codes acc = Except.error e →
      ∃ pre bad post, codes = pre ++ bad :: post ∧
        (∀ cd ∈ pre, codeViolation valute cd = none) ∧
        codeViolation valute bad = some e := by
  induction codes with
  | nil =>
    intro acc e h
    simp [get_currencies_loop] at h
  | cons code rest ih =>
    intro acc e h
    rcases hget : valute.get? code with _ | info
    · simp only [get_currencies_loop, hget, Except.error.injEq] at h
      exact ⟨[], code, rest, rfl, by simp, by simp [codeViolation, hget, h]⟩
    · rcases hval : info.get? "Value" with _ | jv
      · simp only [get_currencies_loop, hget, hval, Except.error.injEq] at h
        exact ⟨[], code, rest, rfl, by simp, by simp [codeViolation, hget, hval, h]⟩
      · cases jv with
        | num v =>
          simp only [get_currencies_loop, hget, hval] at h
          obtain ⟨pre, bad, post, hsplit, hpre, hbad⟩ :=
            ih (dictInsert acc code v) e h
          refine ⟨code :: pre, bad, post, by simp [hsplit], ?_, hbad⟩
          intro cd hcd
          rcases List.mem_cons.mp hcd with hcd | hcd
          · subst hcd
            simp [codeViolation, hget, hval]
          · exact hpre cd hcd
        | str s =>
          simp only [get_currencies_loop, hget, hval, Except.error.injEq] at h
          exact ⟨[], code, rest, rfl, by simp, by simp [codeViolation, hget, hval, h]⟩
        | null =>
          simp only [get_currencies_loop, hget, hval, Except.error.injEq] at h
          exact ⟨[], code, rest, rfl, by simp, by simp [codeViolation, hget, hval, h]⟩
        | arr xs =>
          simp only [get_currencies_loop, hget, hval, Except.error.injEq] at h
          exact ⟨[], code, rest, rfl, by simp, by simp [codeViolation, hget, hval, h]⟩
        | obj fs =>
          simp only [get_currencies_loop, hget, hval, Except.error.injEq] at h
          exact ⟨[], code, rest, rfl, by simp, by simp [codeViolation, hget, hval, h]⟩

/-- Forward direction: the loop fails with the first violation encountered,
whatever the accumulator. -/
lemma get_currencies_loop_err_of_violation (valute : JVal) (pre : List String) :
    ∀ (code : String) (post : List String) (acc : List (String × ℚ)) (e : PyErr),
      (∀ cd ∈ pre, codeViolation valute cd = none) →
      codeViolation valute code = some e →
      get_currencies_loop valute (pre ++ code :: post) acc = Except.error e := by
  induction pre with
  | nil =>
    intro code post acc e _ hbad
    rcases hget : valute.get? code with _ | info
    · simp only [codeViolation, hget, Option.some.injEq] at hbad
      simp [get_currencies_loop, hget, hbad]
    · rcases hval : info.get? "Value" with _ | jv
      · simp only [codeViolation, hget, hval, Option.some.injEq] at hbad
        simp [get_currencies_loop, hget, hval, hbad]
      · cases jv with
        | num v => simp [codeViolation, hget, hval] at hbad
        | str s =>
          simp only [codeViolation, hget, hval, Option.some.injEq] at hbad
          simp [get_currencies_loop, hget, hval, hbad]
        | null =>
          simp only [codeViolation, hget, hval, Option.some.injEq] at hbad
          simp [get_currencies_loop, hget, hval, hbad]
        | arr xs =>
          simp only [codeViolation, hget, hval, Option.some.injEq] at hbad
          simp [get_currencies_loop, hget, hval, hbad]
        | obj fs =>
          simp only [codeViolation, hget, hval, Option.some.injEq] at hbad
          simp [get_currencies_loop, hget, hval, hbad]
  | cons cd0 pre ih =>
    intro code post acc e hpre hbad
    obtain ⟨info, v, hget, hval⟩ :=
      codeViolation_eq_none_inv valute cd0 (hpre cd0 (by simp))
    simp only [List.cons_append, get_currencies_loop, hget, hval]
    exact ih code post (dictInsert acc cd0 v) e
      (fun cd hcd => hpre cd (List.mem_cons_of_mem _ hcd)) hbad

/-- The MissingField error differs from every UnknownCurrency error (same
Python class `KeyError`, but distinguishable messages). -/
lemma missingValuteErr_ne_unknownCurrencyErr (code : String) :
    missingValuteErr ≠ unknownCurrencyErr code := by
  intro h
  have h2 : missingValuteErr.msg.data.get? 1 = (unknownCurrencyErr code).msg.data.get? 1 := by
    rw [h]
  have h3 : (some ' ' : Option Char) = some 'а' := h2
  exact absurd h3 (by decide)

/-- The MissingField error differs from every InvalidValue error (`KeyError`
vs `TypeError`). -/
lemma missingValuteErr_ne_invalidValueErr (code : String) :
    missingValuteErr ≠ invalidValueErr code := by
  intro h
  have h2 : missingValuteErr.kind = (invalidValueErr code).kind := by rw [h]
  have h3 : ("KeyError" : String) = "TypeError" := h2
  exact absurd h3 (by decide)

/-- Every UnknownCurrency error differs from every InvalidValue error
(`KeyError` vs `TypeError`). -/
lemma unknownCurrencyErr_ne_invalidValueErr (code code' : String) :
    unknownCurrencyErr code ≠ invalidValueErr code' := by
  intro h
  have h2 : (unknownCurrencyErr code).kind = (invalidValueErr code').kind := by rw [h]
  have h3 : ("KeyError" : String) = "TypeError" := h2
  exact absurd h3 (by decide)

/-- C7: the rate fetch fails with the distinct taxonomy member matching each
violation — a payload without `Valute` fails with the MissingField error; a
requested code absent from `Valute` (all earlier codes violation-free) fails
with its UnknownCurrency error; a present code whose `Value` is absent or
non-numeric fails with its InvalidValue error; and the three failure kinds
are pairwise distinguishable. -/
theorem C7_failure_taxonomy (codes : List String) (data : JVal) :
    (data.get? "Valute" = none →
      get_currencies codes data = Except.error missingValuteErr) ∧
    (∀ (valute : JVal) (pre : List String) (code : String) (post : List String),
      data.get? "Valute" = some valute →
      codes = pre ++ code :: post →
      (∀ cd ∈ pre, codeViolation valute cd = none) →
      (valute.get? code = none →
        get_currencies codes data = Except.error (unknownCurrencyErr code)) ∧
      (∀ info, valute.get? code = some info →
        (∀ v : ℚ, info.get? "Value" ≠ some (JVal.num v)) →
        get_currencies codes data = Except.error (invalidValueErr code))) ∧
    (∀ code code' : String,
      missingValuteErr ≠ unknownCurrencyErr code ∧
      missingValuteErr ≠ invalidValueErr code ∧
      unknownCurrencyErr code ≠ invalidValueErr code') := by
  refine ⟨?_, ?_, ?_⟩
  · intro h
    simp [get_currencies, h]
  · intro valute pre code post hv hsplit hpre
    constructor
    · intro hget
      subst hsplit
      simp only [get_currencies, hv]
      exact get_currencies_loop_err_of_violation valute pre code post []
        (unknownCurrencyErr code) hpre (by simp [codeViolation, hget])
    · intro info hget hnotnum
      subst hsplit
      simp only [get_currencies, hv]
      apply get_currencies_loop_err_of_violation valute pre code post []
        (invalidValueErr code) hpre
      rcases hval : info.get? "Value" with _ | jv
      · simp [codeViolation, hget, hval]
      · cases jv with
        | num v => exact absurd hval (hnotnum v)
        | str s => simp [codeViolation, hget, hval]
        | null => simp [codeViolation, hget, hval]
        | arr xs => simp [codeViolation, hget, hval]
        | obj fs => simp [codeViolation, hget, hval]
  · intro code code'
    exact ⟨missingValuteErr_ne_unknownCurrencyErr code,
      missingValuteErr_ne_invalidValueErr code,
      unknownCurrencyErr_ne_invalidValueErr code code'⟩

/-- C7 witness: a payload without `Valute` yields the MissingField error;
requesting `"ZZZ"` absent from `Valute` yields `UnknownCurrency("ZZZ")`; a
non-numeric `Value` yields `InvalidValue("USD")`; MissingField and
`UnknownCurrency("ZZZ")` are distinguishable. -/
theorem C7_failure_taxonomy_witness :
    get_currencies ["USD"] (JVal.obj [("other", JVal.null)]) =
      Except.error missingValuteErr ∧
    get_currencies ["ZZZ"] (JVal.obj [("Valute",
        JVal.obj [("USD", JVal.obj [("Value", JVal.num 90)])])]) =
      Except.error (unknownCurrencyErr "ZZZ") ∧
    get_currencies ["USD"] (JVal.obj [("Valute",
        JVal.obj [("USD", JVal.obj [("Value", JVal.str "bad")])])]) =
      Except.error (invalidValueErr "USD") ∧
    missingValuteErr ≠ unknownCurrencyErr "ZZZ" := by
  refine ⟨?_, ?_, ?_, ?_⟩
  · exact (C7_failure_taxonomy ["USD"] (JVal.obj [("other", JVal.null)])).1 rfl
  · exact ((C7_failure_taxonomy ["ZZZ"] (JVal.obj [("Valute",
        JVal.obj [("USD", JVal.obj [("Value", JVal.num 90)])])])).2.1
      (JVal.obj [("USD", JVal.obj [("Value", JVal.num 90)])]) [] "ZZZ" [] rfl rfl
      (by simp)).1 rfl
  · exact ((C7_failure_taxonomy ["USD"] (JVal.obj [("Valute",
        JVal.obj [("USD", JVal.obj [("Value", JVal.str "bad")])])])).2.1
      (JVal.obj [("USD", JVal.obj [("Value", JVal.str "bad")])]) [] "USD" [] rfl rfl
      (by simp)).2 (JVal.obj [("Value", JVal.str "bad")]) rfl
      (by intro v hv; simp [JVal.get?] at hv)
  · exact ((C7_failure_taxonomy [] JVal.null).2.2 "ZZZ" "ZZZ").1

/-- C6: with a `Valute` mapping present, a successful fetch over distinct
requested codes returns a dict whose keys are exactly the requested codes in
their given order, each bound to its numeric `Value`; and any failure is
atomic — no partial result exists, and the error is the violation of the
first violating code in scanning order. -/
theorem C6_success_shape_and_atomic_failure (codes : List String) (data : JVal)
    (valute : JVal) (hv : data.get? "Valute" = some valute) :
    (∀ m, get_currencies codes data = Except.ok m → codes.Nodup →
      m.map Prod.fst = codes ∧ ∀ p ∈ m, codeValue valute p.1 = some p.2) ∧
    (∀ e, get_currencies codes data = Except.error e →
      (∀ m, get_currencies codes data ≠ Except.ok m) ∧
      ∃ pre bad post, codes = pre ++ bad :: post ∧
        (∀ cd ∈ pre, codeViolation valute cd = none) ∧
        codeViolation valute bad = some e) := by
  constructor
  · intro m hok hnd
    simp only [get_currencies, hv] at hok
    obtain ⟨hmap, hvals⟩ := get_currencies_loop_ok valute codes [] m hok (by simp) hnd
    refine ⟨by simpa using hmap, ?_⟩
    intro p hp
    rcases hvals p hp with hin | hcv
    · cases hin
    · exact hcv
  · intro e herr
    constructor
    · intro m hok
      rw [herr] at hok
      cases hok
    · simp only [get_currencies, hv] at herr
      exact get_currencies_loop_err valute codes [] e herr

/-- C6 witness: fetching `["USD", "EUR"]` from a well-formed payload returns
the two codes in order, each bound to its `Value`. -/
theorem C6_success_shape_and_atomic_failure_witness :
    ([("USD", (90 : ℚ)), ("EUR", (100 : ℚ))].map Prod.fst = ["USD", "EUR"]) ∧
    (∀ p ∈ [("USD", (90 : ℚ)), ("EUR", (100 : ℚ))],
      codeValue (JVal.obj [("USD", JVal.obj [("Value", JVal.num 90)]),
        ("EUR", JVal.obj [("Value", JVal.num 100)])]) p.1 = some p.2) :=
  (C6_success_shape_and_atomic_failure ["USD", "EUR"]
    (JVal.obj [("Valute", JVal.obj [("USD", JVal.obj [("Value", JVal.num 90)]),
      ("EUR", JVal.obj [("Value", JVal.num 100)])])])
    (JVal.obj [("USD", JVal.obj [("Value", JVal.num 90)]),
      ("EUR", JVal.obj [("Value", JVal.num 100)])]) rfl).1
    [("USD", 90), ("EUR", 100)] rfl (by decide)

end LR7
